import Mathlib

/-!
Shallow embedding of the Vzaimopiar bot core (`src/main.py`): the JSON-backed
post registry (`JsonStorage`), the per-user session state machine implemented
by the message handlers, and a model of the persistence layer
(`_load_data` / `_save_data`).

Conventions of the embedding:
* Timestamps are the ISO strings the Python code stores; comparison of
  timestamps uses the lexicographic order on strings, exactly as Python's
  `max(..., key=...)` and `sorted(..., key=...)` compare them.
* Parsing a timestamp into a UTC calendar date (`datetime.fromisoformat`
  followed by `.date()`) is abstracted as a function
  `parseDate : String → Option Nat`: `none` models a `ValueError`, `some d`
  the resulting calendar day.  "Today" is a `Nat` parameter.
* `_save_data` can fail; the success of a particular call is threaded in as
  a `Bool` (`ok`), since the in-memory mutation in the Python code happens
  regardless of the outcome of the save.
* The Python dicts `user_states` and session `data` are modelled as an
  association list keyed by user id and a record of two `Option String`
  fields (`category`, `title`); `dict.update` becomes an `Option`-merge.
-/

namespace Vzaimopiar

/-- The 7 fixed category keys, in the source's dictionary order. -/
def CATEGORIES : List String :=
  ["technology", "money", "media", "personal", "culture", "science", "life"]

/-- Python's `<` on strings: lexicographic comparison of the code-point
sequences, a proper prefix being smaller.  Executable by the kernel. -/
def strLtB : List Char → List Char → Bool
  | _, [] => false
  | [], _ :: _ => true
  | a :: as, b :: bs =>
    if a < b then true else if b < a then false else strLtB as bs

/-- Python's `a < b` on the two timestamp strings. -/
def tsLt (a b : String) : Bool := strLtB a.data b.data

/-- Python's `a <= b` on the two timestamp strings (`¬ b < a`). -/
def tsLe (a b : String) : Bool := ! tsLt b a

/-- The whitespace set of Python's `str.strip()` (ASCII part). -/
def isSpaceChar (c : Char) : Bool :=
  c == ' ' || c == '\t' || c == '\n' || c == '\r' || c == '\x0b' || c == '\x0c'

/-- `str.strip()`: drop whitespace from both ends.  Executable by the
kernel (`String.trim` of the library is not). -/
def strip (s : String) : String :=
  String.mk (((s.data.dropWhile isSpaceChar).reverse.dropWhile
    isSpaceChar).reverse)

/-- One stored post: the dict built in `JsonStorage.save_post`. -/
structure PostRec where
  user_id : Nat
  category : String
  title : String
  url : String
  created_at : String
  id : Nat
deriving Repr, DecidableEq

/-- One entry of `user_states`: `{'state': ..., 'data': {...}}`, with the
open `data` map restricted to the two keys the code ever stores. -/
structure Session where
  state : String
  dataCategory : Option String
  dataTitle : Option String
deriving Repr, DecidableEq

/-- The default session returned by `get_user_state` for an unknown user:
`{'state': 'start', 'data': {}}`. -/
def defaultSession : Session := ⟨"start", none, none⟩

/-- In-memory state of `JsonStorage` (the persisted `Document` minus the
`users` table, which no claim touches). -/
structure Storage where
  posts : List PostRec
  user_states : List (Nat × Session)
  next_post_id : Nat
deriving Repr, DecidableEq

/-- The fresh empty document `{'posts': [], 'user_states': {}, 'next_post_id': 1}`. -/
def emptyDoc : Storage := ⟨[], [], 1⟩

/-- Dict lookup on the `user_states` association list. -/
def lookupState (l : List (Nat × Session)) (uid : Nat) : Option Session :=
  (l.find? (fun e => e.1 == uid)).map (fun e => e.2)

/-- Dict assignment `user_states[uid] = s` (replace if present, else append). -/
def insertState (l : List (Nat × Session)) (uid : Nat) (s : Session) :
    List (Nat × Session) :=
  if (l.find? (fun e => e.1 == uid)).isSome then
    l.map (fun e => if e.1 == uid then (uid, s) else e)
  else l ++ [(uid, s)]

/-- Dict deletion `del user_states[uid]`. -/
def eraseState (l : List (Nat × Session)) (uid : Nat) : List (Nat × Session) :=
  l.filter (fun e => ¬ e.1 == uid)

/-- `JsonStorage.get_user_state`: stored entry or the `start` default. -/
def get_user_state (st : Storage) (uid : Nat) : Session :=
  (lookupState st.user_states uid).getD defaultSession

/-- `JsonStorage.set_user_state`: merges the supplied `data` entries into the
user's existing `data` dict (`current.update(data)`), then stores
`{'state': state, 'data': current}`.  A `none` argument means the key is not
in the supplied dict, so the old value is kept. -/
def set_user_state (st : Storage) (uid : Nat) (state : String)
    (newCat newTitle : Option String) : Storage :=
  let old := (lookupState st.user_states uid).getD defaultSession
  let merged : Session :=
    ⟨state, newCat.orElse (fun _ => old.dataCategory),
      newTitle.orElse (fun _ => old.dataTitle)⟩
  { st with user_states := insertState st.user_states uid merged }

/-- `JsonStorage.clear_user_state`: deletes the entry if present. -/
def clear_user_state (st : Storage) (uid : Nat) : Storage :=
  { st with user_states := eraseState st.user_states uid }

/-- Python's `max(p :: ps, key=lambda x: x.get('created_at', ''))`:
fold that replaces the current maximum only on a strictly greater key,
hence keeps the first of equal maxima, as Python's `max` does. -/
def maxByCreated (p : PostRec) (ps : List PostRec) : PostRec :=
  ps.foldl (fun acc q => if tsLt acc.created_at q.created_at then q else acc) p

/-- `JsonStorage.can_user_post`.  `parseDate` abstracts
`datetime.fromisoformat(...).date()` (with the `Z` normalisation folded in):
`none` models the `ValueError` branch, which the code answers with `True`. -/
def can_user_post (parseDate : String → Option Nat) (today : Nat)
    (posts : List PostRec) (uid : Nat) : Bool :=
  match posts.filter (fun p => p.user_id == uid) with
  | [] => true
  | p :: ps =>
    let latest := maxByCreated p ps
    if latest.created_at = "" then true
    else
      match parseDate latest.created_at with
      | none => true
      | some d => decide (d < today)

/-- `JsonStorage.save_post`: builds the post with `id = next_post_id`,
increments the allocator, appends, then `_save_data`; returns the id only if
the save succeeded, but the in-memory mutation stands either way. -/
def save_post (st : Storage) (uid : Nat) (category title url ts : String)
    (ok : Bool) : Storage × Option Nat :=
  let post : PostRec := ⟨uid, category, title, url, ts, st.next_post_id⟩
  let st' : Storage :=
    { st with posts := st.posts ++ [post], next_post_id := st.next_post_id + 1 }
  (st', if ok then some post.id else none)

/-- Removal of the first post with the given id (`self.posts.pop(i)` at the
first matching index), `none` when no post matches. -/
def removeFirst (ps : List PostRec) (pid : Nat) : Option (List PostRec) :=
  match ps with
  | [] => none
  | p :: rest =>
    if p.id == pid then some rest
    else (removeFirst rest pid).map (fun l => p :: l)

/-- `JsonStorage.delete_post`: pops the first matching post and returns the
result of `_save_data`; returns `false` untouched when no post matches. -/
def delete_post (st : Storage) (pid : Nat) (ok : Bool) : Storage × Bool :=
  match removeFirst st.posts pid with
  | some ps => ({ st with posts := ps }, ok)
  | none => (st, false)

/-- `JsonStorage.delete_all_posts`: clears the collection, reports the prior
count on a successful save and `0` otherwise. -/
def delete_all_posts (st : Storage) (ok : Bool) : Storage × Nat :=
  let count := st.posts.length
  ({ st with posts := [] }, if ok then count else 0)

/-- `sorted(self.posts, key=lambda x: x.get('created_at', ''), reverse=True)`:
stable descending sort by the `created_at` string.  Any stable sort computes
the same list, so an insertion sort stands in for Python's timsort. -/
def sortByCreatedDesc (posts : List PostRec) : List PostRec :=
  posts.insertionSort (fun a b => tsLe b.created_at a.created_at = true)

/-- `JsonStorage.get_recent_posts`: per category (in the fixed order) the
newest `limit_per_category` posts; empty categories filtered out.  The
`max_total` parameter is part of the source signature but unused in its body. -/
def get_recent_posts (posts : List PostRec) (limit_per_category : Nat)
    (max_total : Nat) : List (String × List PostRec) :=
  let all_posts := sortByCreatedDesc posts
  (CATEGORIES.map (fun c =>
      (c, (all_posts.filter (fun p => p.category == c)).take limit_per_category))
    ).filter (fun e => ¬ e.2.isEmpty)

/-! ## URL validation (`is_valid_url` over `urllib.parse.urlparse`) -/

/-- `scheme_chars` of `urllib.parse`: ASCII letters, digits, `+`, `-`, `.`. -/
def isSchemeChar (c : Char) : Bool :=
  c.isAlpha || c.isDigit || c == '+' || c == '-' || c == '.'

/-- Split a character list at the first `:`; `none` when there is no colon. -/
def splitColon : List Char → Option (List Char × List Char)
  | [] => none
  | c :: cs =>
    if c = ':' then some ([], cs)
    else (splitColon cs).map (fun pr => (c :: pr.1, pr.2))

/-- The scheme-splitting step of `urlparse`: if the text up to the first `:`
is non-empty, starts with an ASCII letter and consists of scheme characters,
it becomes the (lower-cased) scheme and the rest follows the colon; otherwise
the scheme is empty and the whole input remains. -/
def urlSchemeRest (cs : List Char) : List Char × List Char :=
  match splitColon cs with
  | some (pre, post) =>
    if pre ≠ [] ∧ ((cs.head?.map Char.isAlpha).getD false) ∧ pre.all isSchemeChar
    then (pre.map Char.toLower, post)
    else ([], cs)
  | none => ([], cs)

/-- The netloc step of `urlparse`: when the remainder starts with `//`, the
netloc is everything up to the next `/`, `?` or `#`; otherwise empty. -/
def netlocOf : List Char → List Char
  | '/' :: '/' :: rest => rest.takeWhile (fun c => ¬ (c = '/' ∨ c = '?' ∨ c = '#'))
  | _ => []

/-- `urlparse(url.strip()).scheme` of the embedding. -/
def parsedScheme (s : String) : String :=
  String.mk (urlSchemeRest (strip s).data).1

/-- `urlparse(url.strip()).netloc` of the embedding. -/
def parsedNetloc (s : String) : String :=
  String.mk (netlocOf (urlSchemeRest (strip s).data).2)

/-- `is_valid_url`: `all([result.scheme in ['http', 'https'], result.netloc])`. -/
def is_valid_url (url : String) : Bool :=
  (parsedScheme url == "http" || parsedScheme url == "https")
    && ¬ (parsedNetloc url == "")

/-! ## Message handlers (session state machine) -/

/-- The user-visible outcome of a handler invocation. -/
inductive Outcome
  | subscriptionRequired
  | rejectedTitleTooLong
  | resetToStart
  | limitReached
  | advancedToUrl
  | posted (pid : Nat)
  | saveFailed
  | rejectedInvalidUrl
deriving Repr, DecidableEq

/-- Session-table effect of `show_other_posts`: when the feed (computed with
the default arguments `5, 50`) is non-empty, the handler ends by setting the
user's state to `awaiting_support_confirmation` (merging no new data);
on an empty feed it returns before that line. -/
def show_other_posts_state (st : Storage) (uid : Nat) : Storage :=
  if (get_recent_posts st.posts 5 50).isEmpty then st
  else set_user_state st uid "awaiting_support_confirmation" none none

/-- `handle_title_input`.  In source order: subscription check, title length
check (`len(title) > 50`), missing-category check (reply and call `start`,
which never writes `user_states`), daily-limit check (reply and show the
feed), and finally the transition to `awaiting_url` storing category and
title. -/
def handle_title_input (parseDate : String → Option Nat) (today : Nat)
    (st : Storage) (uid : Nat) (text : String) (sub : Bool) :
    Storage × Outcome :=
  if ¬ sub then (st, .subscriptionRequired)
  else
    let title := strip text
    if title.length > 50 then (st, .rejectedTitleTooLong)
    else
      match (get_user_state st uid).dataCategory with
      | none => (st, .resetToStart)
      | some category =>
        if ¬ can_user_post parseDate today st.posts uid then
          (show_other_posts_state st uid, .limitReached)
        else
          (set_user_state st uid "awaiting_url" (some category) (some title),
            .advancedToUrl)

/-- `handle_url_input`.  In source order: subscription check, missing-data
check (reply and call `start`, which never writes `user_states`), URL
validation, `save_post`, then on success the feed (`show_other_posts`, which
sets `awaiting_support_confirmation`), and in both cases `clear_user_state`
as the final statement. -/
def handle_url_input (st : Storage) (uid : Nat) (text ts : String)
    (ok sub : Bool) : Storage × Outcome :=
  if ¬ sub then (st, .subscriptionRequired)
  else
    let url := strip text
    let data := get_user_state st uid
    match data.dataCategory, data.dataTitle with
    | some category, some title =>
      if ¬ is_valid_url url then (st, .rejectedInvalidUrl)
      else
        let res := save_post st uid category title url ts ok
        match res.2 with
        | some pid =>
          (clear_user_state (show_other_posts_state res.1 uid) uid, .posted pid)
        | none => (clear_user_state res.1 uid, .saveFailed)
    | _, _ => (st, .resetToStart)

/-- Session-table effect of `show_categories`: after the subscription check
it ends with `set_user_state(user_id, 'awaiting_category')`, whose `data`
argument defaults to the empty dict, so the existing data is merged
(i.e. kept). -/
def show_categories_state (st : Storage) (uid : Nat) (sub : Bool) : Storage :=
  if ¬ sub then st
  else set_user_state st uid "awaiting_category" none none

/-- Session-table effect of `handle_back_navigation` per callback value.
`back_to_categories` runs `show_categories`; `back_to_title` only edits the
message (it calls `start` when the category is missing, and neither branch
writes `user_states`); `start_over` and `back_to_main` call `start`, which
never writes `user_states`. -/
def handle_back_navigation (st : Storage) (uid : Nat) (cb : String)
    (sub : Bool) : Storage :=
  if cb == "back_to_categories" then show_categories_state st uid sub
  else if cb == "back_to_title" then st
  else if cb == "start_over" then st
  else if cb == "back_to_main" then st
  else st

/-! ## Persistence model (`_load_data` / `_save_data`)

The disk is modelled by the contents of the three paths the code touches
(`self.filename`, `self.backup_filename`, `self.filename + ".tmp"`).  A
file's content is `absent`, a `valid` serialised document (JSON round-trips
the dict exactly), `corrupt` (readable but not parsable) or `unreadable`
(open/read raises).  `os.replace` / `os.rename` are atomic: a crash leaves
either the old main file or the fully written new one, never a torn one —
this is the OS guarantee the code relies on. -/

inductive FileContent
  | absent
  | valid (d : Storage)
  | corrupt
  | unreadable
deriving Repr, DecidableEq

/-- The three file slots the storage code touches. -/
structure FS where
  main : FileContent
  backup : Option FileContent
  tmp : Option FileContent
deriving Repr, DecidableEq

/-- `JsonStorage._load_data`: absent file → fresh empty document; valid file
→ its document; a read or parse failure → best-effort `shutil.copy` of the
artifact to the backup path (`copyOk` says whether that copy succeeds; its
failure is swallowed) and then the fresh empty document.  Total: every
branch returns a document — nothing propagates to the caller. -/
def load_data (fs : FS) (copyOk : Bool) : Storage × FS :=
  match fs.main with
  | .absent => (emptyDoc, fs)
  | .valid d => (d, fs)
  | .corrupt =>
    (emptyDoc, if copyOk then { fs with backup := some .corrupt } else fs)
  | .unreadable =>
    (emptyDoc, if copyOk then { fs with backup := some .unreadable } else fs)

/-- A failure point inside `_save_data`: an exception while writing the temp
file, or one raised by the (atomic, hence not performed) replace. -/
inductive SaveFault
  | writeTmp
  | replacing
deriving Repr, DecidableEq

/-- `JsonStorage._save_data`: dump the full document to `filename + ".tmp"`,
then `os.replace`/`os.rename` it over the real file and report `true`.  On
an exception the handler removes the temp file and reports `false`; the main
file is untouched in both fault cases. -/
def save_data (fs : FS) (d : Storage) (fault : Option SaveFault) : FS × Bool :=
  match fault with
  | none => ({ fs with main := .valid d, tmp := none }, true)
  | some .writeTmp => ({ fs with tmp := none }, false)
  | some .replacing => ({ fs with tmp := none }, false)

/-- Where a process crash interrupts `_save_data` (no cleanup runs). -/
inductive CrashPoint
  | duringTmpWrite
  | beforeReplace
  | afterReplace
deriving Repr, DecidableEq

/-- Disk state after a crash inside `_save_data`: a torn temp file, a fully
written temp file not yet renamed, or a completed atomic replace.  The main
file is only ever the old content or the complete new document. -/
def save_data_crash (fs : FS) (d : Storage) (cp : CrashPoint) : FS :=
  match cp with
  | .duringTmpWrite => { fs with tmp := some .corrupt }
  | .beforeReplace => { fs with tmp := some (.valid d) }
  | .afterReplace => { fs with main := .valid d, tmp := none }

/-! ## Registry operation traces (for the allocator invariant) -/

/-- One registry mutation, with the success of its `_save_data` call. -/
inductive Op
  | submit (uid : Nat) (category title url ts : String) (ok : Bool)
  | delete (pid : Nat) (ok : Bool)
  | deleteAll (ok : Bool)
deriving Repr, DecidableEq

/-- Run one operation; the second component is the id returned by a
successful submit. -/
def stepOp (st : Storage) : Op → Storage × Option Nat
  | .submit uid c t u ts ok => save_post st uid c t u ts ok
  | .delete pid ok => ((delete_post st pid ok).1, none)
  | .deleteAll ok => ((delete_all_posts st ok).1, none)

/-- Run a list of operations, collecting the ids returned by successful
submits in order. -/
def runOps (st : Storage) : List Op → Storage × List Nat
  | [] => (st, [])
  | op :: ops =>
    let s := stepOp st op
    let r := runOps s.1 ops
    (r.1, s.2.toList ++ r.2)

/-- The allocator invariant: `next_post_id` is strictly greater than every
stored post id. -/
def idInv (st : Storage) : Prop := ∀ p ∈ st.posts, p.id < st.next_post_id

instance (st : Storage) : Decidable (idInv st) := by
  unfold idInv; infer_instance

/-- A demonstration timestamp parser for the witnesses: the two ISO dates it
knows map to days 1 and 2, everything else is unparsable. -/
def demoParseDate : String → Option Nat := fun s =>
  if s = "2025-01-01" then some 1
  else if s = "2025-01-02" then some 2 else none

/-! ## Persistence theorems -/

/-- **C3**: saving a document and loading it back yields the identical
document, and `_save_data` is all-or-nothing: on any fault it reports
failure, leaves the main file untouched and removes the temp artifact, and
after a mid-write crash the main file holds either the previously committed
document or the complete new one, so `_load_data` never sees a torn state. -/
theorem save_roundtrip_all_or_nothing (fs : FS) (d d0 : Storage) (copyOk : Bool) :
    ((load_data (save_data fs d none).1 copyOk).1 = d
      ∧ (save_data fs d none).2 = true)
    ∧ (∀ fault : SaveFault,
        (save_data fs d (some fault)).2 = false
        ∧ (save_data fs d (some fault)).1.main = fs.main
        ∧ (save_data fs d (some fault)).1.tmp = none)
    ∧ (∀ cp : CrashPoint, fs.main = .valid d0 →
        (load_data (save_data_crash fs d cp) copyOk).1 = d0
        ∨ (load_data (save_data_crash fs d cp) copyOk).1 = d) := by
  obtain ⟨m, b, t⟩ := fs
  refine ⟨⟨rfl, rfl⟩, fun fault => ?_, fun cp h => ?_⟩
  · cases fault <;> exact ⟨rfl, rfl, rfl⟩
  · replace h : m = FileContent.valid d0 := h
    subst h
    cases cp
    · exact Or.inl rfl
    · exact Or.inl rfl
    · exact Or.inr rfl

/-- Witness for C3 at a concrete filesystem and crash point. -/
theorem save_roundtrip_all_or_nothing_witness :
    (⟨FileContent.valid emptyDoc, none, none⟩ : FS).main = .valid emptyDoc
    ∧ ((load_data
          (save_data_crash ⟨FileContent.valid emptyDoc, none, none⟩
            ⟨[], [], 2⟩ .beforeReplace) true).1 = emptyDoc
      ∨ (load_data
          (save_data_crash ⟨FileContent.valid emptyDoc, none, none⟩
            ⟨[], [], 2⟩ .beforeReplace) true).1 = ⟨[], [], 2⟩) :=
  ⟨rfl,
    (save_roundtrip_all_or_nothing ⟨FileContent.valid emptyDoc, none, none⟩
        ⟨[], [], 2⟩ emptyDoc true).2.2 .beforeReplace rfl⟩

/-- **C4**: `_load_data` is a total function (it never propagates an
exception): an absent file yields the fresh empty document and no other
effect; an unreadable file yields the fresh empty document; a corrupt file
first gets copied aside (when the best-effort copy succeeds; its failure
changes nothing) and the fresh empty document is returned. -/
theorem load_never_raises (fs : FS) (copyOk : Bool) :
    (fs.main = .absent → load_data fs copyOk = (emptyDoc, fs))
    ∧ (fs.main = .unreadable → (load_data fs copyOk).1 = emptyDoc)
    ∧ (fs.main = .corrupt →
        (load_data fs copyOk).1 = emptyDoc
        ∧ (copyOk = true → (load_data fs copyOk).2.backup = some .corrupt)
        ∧ (copyOk = false → (load_data fs copyOk).2 = fs)) := by
  obtain ⟨m, b, t⟩ := fs
  refine ⟨fun h => ?_, fun h => ?_, fun h => ?_⟩
  · replace h : m = FileContent.absent := h
    subst h; rfl
  · replace h : m = FileContent.unreadable := h
    subst h; cases copyOk <;> rfl
  · replace h : m = FileContent.corrupt := h
    subst h
    cases copyOk <;> simp [load_data]

/-- Witness for C4 at a concrete corrupt filesystem. -/
theorem load_never_raises_witness :
    (⟨FileContent.corrupt, none, none⟩ : FS).main = .corrupt
    ∧ (load_data ⟨FileContent.corrupt, none, none⟩ true).1 = emptyDoc
    ∧ (load_data ⟨FileContent.corrupt, none, none⟩ true).2.backup
        = some .corrupt :=
  ⟨rfl,
    ((load_never_raises ⟨FileContent.corrupt, none, none⟩ true).2.2 rfl).1,
    ((load_never_raises ⟨FileContent.corrupt, none, none⟩ true).2.2 rfl).2.1 rfl⟩

/-! ## Allocator invariant (C2) -/

/-- Anything surviving `removeFirst` was in the original list. -/
theorem removeFirst_subset {ps : List PostRec} {pid : Nat} {l : List PostRec}
    (h : removeFirst ps pid = some l) : ∀ p ∈ l, p ∈ ps := by
  induction ps generalizing l with
  | nil => simp [removeFirst] at h
  | cons q rest ih =>
    rw [removeFirst] at h
    by_cases hq : q.id == pid
    · rw [if_pos hq, Option.some_inj] at h
      subst h
      exact fun p hp => List.mem_cons_of_mem _ hp
    · rw [if_neg hq] at h
      cases hrec : removeFirst rest pid with
      | none => rw [hrec] at h; simp at h
      | some l' =>
        rw [hrec] at h
        replace h : q :: l' = l := by simpa using h
        subst h
        intro p hp
        rcases List.mem_cons.mp hp with rfl | hp'
        · exact List.mem_cons_self ..
        · exact List.mem_cons_of_mem _ (ih hrec p hp')

/-- Every registry operation preserves the allocator invariant. -/
theorem idInv_stepOp {st : Storage} (h : idInv st) (op : Op) :
    idInv (stepOp st op).1 := by
  cases op with
  | submit uid c t u ts ok =>
    intro p hp
    simp only [stepOp, save_post] at hp ⊢
    rcases List.mem_append.mp hp with hp' | hp'
    · exact Nat.lt_succ_of_lt (h p hp')
    · rcases List.mem_singleton.mp hp' with rfl
      exact Nat.lt_succ_self _
  | delete pid ok =>
    simp only [stepOp, delete_post]
    cases hrem : removeFirst st.posts pid with
    | none => exact h
    | some ps => exact fun p hp => h p (removeFirst_subset hrem p hp)
  | deleteAll ok =>
    intro p hp
    simp [stepOp, delete_all_posts] at hp

/-- The allocator never decreases. -/
theorem stepOp_next_mono (st : Storage) (op : Op) :
    st.next_post_id ≤ (stepOp st op).1.next_post_id := by
  cases op with
  | submit uid c t u ts ok =>
    exact Nat.le_succ _
  | delete pid ok =>
    simp only [stepOp, delete_post]
    cases hrem : removeFirst st.posts pid <;> simp
  | deleteAll ok => exact le_refl _

/-- An id handed out by an operation is below the allocator afterwards. -/
theorem stepOp_ret_lt_next {st : Storage} {op : Op} {a : Nat}
    (h : (stepOp st op).2 = some a) : a < (stepOp st op).1.next_post_id := by
  cases op with
  | submit uid c t u ts ok =>
    simp only [stepOp, save_post] at h ⊢
    cases ok with
    | true => simp at h; omega
    | false => simp at h
  | delete pid ok => simp [stepOp] at h
  | deleteAll ok => simp [stepOp] at h

/-- An id handed out by an operation is at least the allocator value before. -/
theorem stepOp_ret_ge {st : Storage} {op : Op} {a : Nat}
    (h : (stepOp st op).2 = some a) : st.next_post_id ≤ a := by
  cases op with
  | submit uid c t u ts ok =>
    simp only [stepOp, save_post] at h
    cases ok with
    | true => simp at h; omega
    | false => simp at h
  | delete pid ok => simp [stepOp] at h
  | deleteAll ok => simp [stepOp] at h

/-- Membership in the `toList` of an operation's return value. -/
theorem mem_stepOp_toList {st : Storage} {op : Op} {i : Nat}
    (h : i ∈ (stepOp st op).2.toList) : (stepOp st op).2 = some i := by
  cases hv : (stepOp st op).2 with
  | none => rw [hv] at h; simp at h
  | some a =>
    rw [hv] at h
    rcases List.mem_singleton.mp h with rfl
    rfl

/-- Every id a trace hands out is at least the allocator value at its start. -/
theorem runOps_ids_lb (ops : List Op) (st : Storage) :
    ∀ i ∈ (runOps st ops).2, st.next_post_id ≤ i := by
  induction ops generalizing st with
  | nil => simp [runOps]
  | cons op ops ih =>
    intro i hi
    simp only [runOps] at hi
    rcases List.mem_append.mp hi with hi' | hi'
    · exact stepOp_ret_ge (mem_stepOp_toList hi')
    · exact le_trans (stepOp_next_mono st op) (ih (stepOp st op).1 i hi')

/-- **C2**: starting from any state satisfying the allocator invariant (in
particular the fresh registry), after any trace of submits and deletions the
invariant still holds — `next_post_id` exceeds every stored id — and the
sequence of ids returned by successful submits is strictly increasing, so a
deleted id is never handed out again. -/
theorem submit_ids_strictly_increasing (st : Storage) (h : idInv st)
    (ops : List Op) :
    idInv (runOps st ops).1 ∧ (runOps st ops).2.Pairwise (· < ·) := by
  induction ops generalizing st with
  | nil => exact ⟨h, List.Pairwise.nil⟩
  | cons op ops ih =>
    obtain ⟨hinv, hpw⟩ := ih (stepOp st op).1 (idInv_stepOp h op)
    refine ⟨hinv, ?_⟩
    simp only [runOps]
    refine List.pairwise_append.mpr ⟨?_, hpw, ?_⟩
    · cases (stepOp st op).2 <;> simp
    · intro a ha b hb
      exact lt_of_lt_of_le (stepOp_ret_lt_next (mem_stepOp_toList ha))
        (runOps_ids_lb ops (stepOp st op).1 b hb)

/-- Witness for C2: a fresh registry, a submit, a deletion of post 1, then
another submit; the returned ids are `[1, 2]`. -/
theorem submit_ids_strictly_increasing_witness :
    idInv emptyDoc
    ∧ (idInv (runOps emptyDoc
          [.submit 1 "technology" "t" "u" "D1" true, .delete 1 true,
            .submit 2 "money" "t" "u" "D1" true]).1
      ∧ (runOps emptyDoc
          [.submit 1 "technology" "t" "u" "D1" true, .delete 1 true,
            .submit 2 "money" "t" "u" "D1" true]).2.Pairwise (· < ·)) :=
  ⟨by decide,
    submit_ids_strictly_increasing emptyDoc (by decide)
      [.submit 1 "technology" "t" "u" "D1" true, .delete 1 true,
        .submit 2 "money" "t" "u" "D1" true]⟩

/-! ## Order facts about the string comparison -/

theorem strLtB_irrefl (l : List Char) : strLtB l l = false := by
  induction l with
  | nil => rfl
  | cons a as ih => simp [strLtB, ih]

theorem strLtB_asymm {l₁ l₂ : List Char} (h : strLtB l₁ l₂ = true) :
    strLtB l₂ l₁ = false := by
  induction l₁ generalizing l₂ with
  | nil =>
    cases l₂ with
    | nil => simp [strLtB] at h
    | cons b bs => rfl
  | cons a as ih =>
    cases l₂ with
    | nil => simp [strLtB] at h
    | cons b bs =>
      rw [strLtB] at h ⊢
      by_cases hab : a < b
      · rw [if_neg (lt_asymm hab), if_pos hab]
      · by_cases hba : b < a
        · rw [if_neg hab, if_pos hba] at h
          simp at h
        · rw [if_neg hab, if_neg hba] at h
          rw [if_neg hba, if_neg hab, ih h]

theorem strLtB_trans {l₁ l₂ l₃ : List Char} (h1 : strLtB l₁ l₂ = true)
    (h2 : strLtB l₂ l₃ = true) : strLtB l₁ l₃ = true := by
  induction l₁ generalizing l₂ l₃ with
  | nil =>
    cases l₃ with
    | nil => cases l₂ <;> simp [strLtB] at h2
    | cons c cs => rfl
  | cons a as ih =>
    cases l₂ with
    | nil => simp [strLtB] at h1
    | cons b bs =>
      cases l₃ with
      | nil => simp [strLtB] at h2
      | cons c cs =>
        rw [strLtB] at h1 h2 ⊢
        by_cases hab : a < b
        · by_cases hbc : b < c
          · rw [if_pos (lt_trans hab hbc)]
          · by_cases hcb : c < b
            · rw [if_neg hbc, if_pos hcb] at h2
              simp at h2
            · have hbceq : b = c := le_antisymm (le_of_not_lt hcb) (le_of_not_lt hbc)
              rw [if_pos (hbceq ▸ hab)]
        · by_cases hba : b < a
          · rw [if_neg hab, if_pos hba] at h1
            simp at h1
          · have habeq : a = b := le_antisymm (le_of_not_lt hba) (le_of_not_lt hab)
            rw [if_neg hab, if_neg hba] at h1
            by_cases hbc : b < c
            · rw [if_pos (habeq ▸ hbc)]
            · by_cases hcb : c < b
              · rw [if_neg hbc, if_pos hcb] at h2
                simp at h2
              · have hbceq : b = c :=
                  le_antisymm (le_of_not_lt hcb) (le_of_not_lt hbc)
                rw [if_neg hbc, if_neg hcb] at h2
                have hac : ¬ a < c := hbceq ▸ habeq ▸ lt_irrefl a
                have hca : ¬ c < a := hbceq ▸ habeq ▸ lt_irrefl a
                rw [if_neg hac, if_neg hca, ih h1 h2]

theorem strLtB_eq_of_not_lt {l₁ l₂ : List Char} (h1 : strLtB l₁ l₂ = false)
    (h2 : strLtB l₂ l₁ = false) : l₁ = l₂ := by
  induction l₁ generalizing l₂ with
  | nil =>
    cases l₂ with
    | nil => rfl
    | cons b bs => simp [strLtB] at h1
  | cons a as ih =>
    cases l₂ with
    | nil => simp [strLtB] at h2
    | cons b bs =>
      rw [strLtB] at h1 h2
      by_cases hab : a < b
      · rw [if_pos hab] at h1
        simp at h1
      · by_cases hba : b < a
        · rw [if_pos hba] at h2
          simp at h2
        · rw [if_neg hab, if_neg hba] at h1
          rw [if_neg hba, if_neg hab] at h2
          have hchar : a = b := le_antisymm (le_of_not_lt hba) (le_of_not_lt hab)
          rw [hchar, ih h1 h2]

theorem tsLe_refl (a : String) : tsLe a a = true := by
  unfold tsLe tsLt
  rw [strLtB_irrefl]
  rfl

theorem tsLe_of_tsLt {a b : String} (h : tsLt a b = true) : tsLe a b = true := by
  unfold tsLe
  unfold tsLt at h ⊢
  rw [strLtB_asymm h]
  rfl

theorem tsLe_of_not_tsLt {a b : String} (h : ¬ tsLt a b = true) :
    tsLe b a = true := by
  unfold tsLe
  rw [Bool.not_eq_true] at h
  rw [h]
  rfl

theorem tsLe_antisymm {a b : String} (h1 : tsLe a b = true)
    (h2 : tsLe b a = true) : a = b := by
  unfold tsLe tsLt at h1 h2
  rw [Bool.not_eq_true'] at h1 h2
  exact String.ext (strLtB_eq_of_not_lt h2 h1)

theorem tsLe_trans {a b c : String} (h1 : tsLe a b = true)
    (h2 : tsLe b c = true) : tsLe a c = true := by
  unfold tsLe tsLt at h1 h2 ⊢
  rw [Bool.not_eq_true'] at h1 h2 ⊢
  by_contra hc
  rw [Bool.not_eq_false] at hc
  rcases Bool.eq_false_or_eq_true (strLtB a.data b.data) with hab | hab
  · rw [strLtB_trans hc hab] at h2
    simp at h2
  · rw [strLtB_eq_of_not_lt hab h1] at hc
    rw [hc] at h2
    simp at h2

theorem tsLe_total (a b : String) : tsLe a b = true ∨ tsLe b a = true := by
  unfold tsLe
  rcases Bool.eq_false_or_eq_true (tsLt b a) with h | h
  · right
    unfold tsLt at h ⊢
    rw [strLtB_asymm h]
    rfl
  · left
    rw [h]
    rfl

/-! ## Daily submission limit (C1) -/

/-- One step of the `max(..., key=...)` fold. -/
theorem maxByCreated_cons (p q : PostRec) (rest : List PostRec) :
    maxByCreated p (q :: rest)
      = maxByCreated (if tsLt p.created_at q.created_at then q else p) rest := rfl

/-- The selected latest post is one of the user's posts. -/
theorem maxByCreated_mem (p : PostRec) (ps : List PostRec) :
    maxByCreated p ps ∈ p :: ps := by
  induction ps generalizing p with
  | nil => simp [maxByCreated]
  | cons q rest ih =>
    rw [maxByCreated_cons]
    by_cases h : tsLt p.created_at q.created_at = true
    · rw [if_pos h]
      rcases List.mem_cons.mp (ih q) with h1 | h1
      · rw [h1]; exact List.mem_cons_of_mem _ (List.mem_cons_self q rest)
      · exact List.mem_cons_of_mem _ (List.mem_cons_of_mem _ h1)
    · rw [if_neg h]
      rcases List.mem_cons.mp (ih p) with h1 | h1
      · rw [h1]; exact List.mem_cons_self p (q :: rest)
      · exact List.mem_cons_of_mem _ (List.mem_cons_of_mem _ h1)

/-- The selected latest post has the largest `created_at` key. -/
theorem le_maxByCreated (p : PostRec) (ps : List PostRec) :
    ∀ q ∈ p :: ps,
      tsLe q.created_at (maxByCreated p ps).created_at = true := by
  induction ps generalizing p with
  | nil =>
    intro q hq
    rcases List.mem_cons.mp hq with rfl | hq'
    · exact tsLe_refl _
    · simp at hq'
  | cons r rest ih =>
    intro q hq
    rw [maxByCreated_cons]
    by_cases h : tsLt p.created_at r.created_at = true
    · rw [if_pos h]
      rcases List.mem_cons.mp hq with h1 | hq'
      · rw [h1]
        exact tsLe_trans (tsLe_of_tsLt h) (ih r r (List.mem_cons_self r rest))
      · exact ih r q hq'
    · rw [if_neg h]
      rcases List.mem_cons.mp hq with h1 | hq'
      · rw [h1]
        exact ih p p (List.mem_cons_self p rest)
      · rcases List.mem_cons.mp hq' with h2 | hq''
        · rw [h2]
          exact tsLe_trans (tsLe_of_not_tsLt h) (ih p p (List.mem_cons_self p rest))
        · exact ih p q (List.mem_cons_of_mem _ hq'')

/-- Evaluation of `can_user_post` once the user's filtered posts are known. -/
theorem can_user_post_filter_cons (parseDate : String → Option Nat)
    (today : Nat) (posts : List PostRec) (uid : Nat) (p : PostRec)
    (ps : List PostRec)
    (hf : posts.filter (fun q => q.user_id == uid) = p :: ps) :
    can_user_post parseDate today posts uid
      = (if (maxByCreated p ps).created_at = "" then true
         else
           match parseDate (maxByCreated p ps).created_at with
           | none => true
           | some d => decide (d < today)) := by
  unfold can_user_post
  rw [hf]

/-- If every key is at most `ts` and some post carries `ts`, the selected
latest post carries `ts`. -/
theorem maxByCreated_created_eq {p : PostRec} {ps : List PostRec} {ts : String}
    (hle : ∀ q ∈ p :: ps, tsLe q.created_at ts = true)
    (hmem : ∃ q ∈ p :: ps, q.created_at = ts) :
    (maxByCreated p ps).created_at = ts := by
  obtain ⟨q, hq, hqts⟩ := hmem
  exact tsLe_antisymm (hle _ (maxByCreated_mem p ps))
    (hqts ▸ le_maxByCreated p ps q hq)

/-- **C1**: `can_user_post` is true for a user with no stored post; when the
user's latest post (maximal `created_at` key, first on ties, as Python's
`max`) has an empty or unparsable timestamp it is true; when that timestamp
parses to day `d` it equals `d < today`, i.e. false for the rest of that UTC
day and true once the UTC date is strictly later; and immediately after a
successful submit stamped `ts` (the newest timestamp) with
`parseDate ts = some d` it equals `d < today`. -/
theorem can_user_post_daily_limit (parseDate : String → Option Nat)
    (today : Nat) :
    (∀ posts : List PostRec, ∀ uid : Nat,
        posts.filter (fun p => p.user_id == uid) = [] →
        can_user_post parseDate today posts uid = true)
    ∧ (∀ posts : List PostRec, ∀ uid : Nat, ∀ p : PostRec,
        ∀ ps : List PostRec,
        posts.filter (fun q => q.user_id == uid) = p :: ps →
        ((maxByCreated p ps).created_at = ""
          ∨ parseDate (maxByCreated p ps).created_at = none) →
        can_user_post parseDate today posts uid = true)
    ∧ (∀ posts : List PostRec, ∀ uid : Nat, ∀ p : PostRec,
        ∀ ps : List PostRec, ∀ d : Nat,
        posts.filter (fun q => q.user_id == uid) = p :: ps →
        (maxByCreated p ps).created_at ≠ "" →
        parseDate (maxByCreated p ps).created_at = some d →
        can_user_post parseDate today posts uid = decide (d < today))
    ∧ (∀ st : Storage, ∀ uid : Nat, ∀ c t u ts : String, ∀ d : Nat,
        (∀ q ∈ st.posts, tsLe q.created_at ts = true) → ts ≠ "" →
        parseDate ts = some d →
        can_user_post parseDate today
            (save_post st uid c t u ts true).1.posts uid
          = decide (d < today)) := by
  refine ⟨?_, ?_, ?_, ?_⟩
  · intro posts uid h
    unfold can_user_post
    rw [h]
  · intro posts uid p ps hf hbad
    rw [can_user_post_filter_cons parseDate today posts uid p ps hf]
    rcases hbad with he | hn
    · rw [if_pos he]
    · by_cases he : (maxByCreated p ps).created_at = ""
      · rw [if_pos he]
      · rw [if_neg he, hn]
  · intro posts uid p ps d hf hne hparse
    rw [can_user_post_filter_cons parseDate today posts uid p ps hf,
      if_neg hne, hparse]
  · intro st uid c t u ts d hle hts hparse
    have hfilter :
        (save_post st uid c t u ts true).1.posts.filter
            (fun q => q.user_id == uid)
          = st.posts.filter (fun q => q.user_id == uid)
              ++ [⟨uid, c, t, u, ts, st.next_post_id⟩] := by
      simp [save_post, List.filter_append]
    obtain ⟨p, ps, hcons⟩ :
        ∃ p ps, st.posts.filter (fun q => q.user_id == uid)
            ++ [(⟨uid, c, t, u, ts, st.next_post_id⟩ : PostRec)] = p :: ps := by
      cases st.posts.filter (fun q => q.user_id == uid) with
      | nil => exact ⟨_, [], rfl⟩
      | cons a l =>
        exact ⟨a, l ++ [⟨uid, c, t, u, ts, st.next_post_id⟩], by simp⟩
    rw [can_user_post_filter_cons parseDate today _ uid p ps
      (hfilter.trans hcons)]
    have hmax : (maxByCreated p ps).created_at = ts := by
      apply maxByCreated_created_eq
      · intro q hq
        rw [← hcons] at hq
        rcases List.mem_append.mp hq with hq' | hq'
        · exact hle q (List.mem_of_mem_filter hq')
        · rcases List.mem_singleton.mp hq' with rfl
          exact tsLe_refl _
      · refine ⟨⟨uid, c, t, u, ts, st.next_post_id⟩, ?_, rfl⟩
        rw [← hcons]
        exact List.mem_append_right _ (List.mem_singleton_self _)
    rw [hmax, if_neg hts, hparse]

/-- Witness for C1: right after a submit stamped on day 1, with `today = 1`,
`can_user_post` is false. -/
theorem can_user_post_daily_limit_witness :
    ((∀ q ∈ emptyDoc.posts, tsLe q.created_at "2025-01-01" = true)
      ∧ "2025-01-01" ≠ "" ∧ demoParseDate "2025-01-01" = some 1)
    ∧ can_user_post demoParseDate 1
        (save_post emptyDoc 7 "technology" "T" "https://e.com" "2025-01-01"
          true).1.posts 7
      = decide (1 < 1) :=
  ⟨⟨by decide, by decide, by decide⟩,
    (can_user_post_daily_limit demoParseDate 1).2.2.2 emptyDoc 7 "technology"
      "T" "https://e.com" "2025-01-01" 1 (by decide) (by decide) (by decide)⟩

/-! ## Recent feed (C5, C9) -/

/-- The stable descending sort of the feed is sorted by `created_at`. -/
theorem sortByCreatedDesc_sorted (posts : List PostRec) :
    (sortByCreatedDesc posts).Pairwise
      (fun a b => tsLe b.created_at a.created_at = true) := by
  haveI : IsTotal PostRec (fun a b => tsLe b.created_at a.created_at = true) :=
    ⟨fun a b => tsLe_total b.created_at a.created_at⟩
  haveI : IsTrans PostRec (fun a b => tsLe b.created_at a.created_at = true) :=
    ⟨fun a b c hab hbc => tsLe_trans hbc hab⟩
  exact List.sorted_insertionSort _ posts

/-- **C5**: every entry of the feed is a non-empty per-category slice of at
most `limit_per_category` posts, ordered newest-first by `created_at`, whose
posts all belong to the entry's category (one of the 7 fixed ones);
categories with no matching posts never appear. -/
theorem recent_feed_bounded_sorted (posts : List PostRec)
    (limit_per_category max_total : Nat) :
    ∀ pr ∈ get_recent_posts posts limit_per_category max_total,
      pr.2 ≠ []
      ∧ pr.2.length ≤ limit_per_category
      ∧ pr.2.Pairwise (fun a b => tsLe b.created_at a.created_at = true)
      ∧ pr.1 ∈ CATEGORIES
      ∧ ∀ p ∈ pr.2, p.category = pr.1 := by
  intro pr hpr
  unfold get_recent_posts at hpr
  rw [List.mem_filter] at hpr
  obtain ⟨hmem, hne⟩ := hpr
  rw [List.mem_map] at hmem
  obtain ⟨c, hc, rfl⟩ := hmem
  refine ⟨?_, ?_, ?_, ?_, ?_⟩
  · intro hnil
    rw [hnil] at hne
    simp at hne
  · exact List.length_take_le _ _
  · exact (sortByCreatedDesc_sorted posts).filter _
      |>.sublist (List.take_sublist _ _)
  · exact hc
  · intro p hp
    have hp' := List.mem_of_mem_take hp
    have := List.of_mem_filter hp'
    exact eq_of_beq this

/-- Witness for C5 on a concrete two-post feed. -/
theorem recent_feed_bounded_sorted_witness :
    (("technology",
        [(⟨2, "technology", "B", "u", "2025-01-02", 2⟩ : PostRec),
          ⟨1, "technology", "A", "u", "2025-01-01", 1⟩])
      ∈ get_recent_posts
          [⟨1, "technology", "A", "u", "2025-01-01", 1⟩,
            ⟨2, "technology", "B", "u", "2025-01-02", 2⟩] 5 50)
    ∧ (("technology",
        [(⟨2, "technology", "B", "u", "2025-01-02", 2⟩ : PostRec),
          ⟨1, "technology", "A", "u", "2025-01-01", 1⟩]).2 ≠ []
      ∧ ("technology",
          [(⟨2, "technology", "B", "u", "2025-01-02", 2⟩ : PostRec),
            ⟨1, "technology", "A", "u", "2025-01-01", 1⟩]).2.length ≤ 5
      ∧ ("technology",
          [(⟨2, "technology", "B", "u", "2025-01-02", 2⟩ : PostRec),
            ⟨1, "technology", "A", "u", "2025-01-01", 1⟩]).2.Pairwise
            (fun a b => tsLe b.created_at a.created_at = true)
      ∧ ("technology",
          [(⟨2, "technology", "B", "u", "2025-01-02", 2⟩ : PostRec),
            ⟨1, "technology", "A", "u", "2025-01-01", 1⟩]).1 ∈ CATEGORIES
      ∧ ∀ p ∈ ("technology",
          [(⟨2, "technology", "B", "u", "2025-01-02", 2⟩ : PostRec),
            ⟨1, "technology", "A", "u", "2025-01-01", 1⟩]).2,
          p.category = ("technology",
            [(⟨2, "technology", "B", "u", "2025-01-02", 2⟩ : PostRec),
              ⟨1, "technology", "A", "u", "2025-01-01", 1⟩]).1) :=
  ⟨by decide,
    recent_feed_bounded_sorted
      [⟨1, "technology", "A", "u", "2025-01-01", 1⟩,
        ⟨2, "technology", "B", "u", "2025-01-02", 2⟩] 5 50
      ("technology",
        [⟨2, "technology", "B", "u", "2025-01-02", 2⟩,
          ⟨1, "technology", "A", "u", "2025-01-01", 1⟩])
      (by decide)⟩

/-! ## Session-table lemmas -/

/-- After a dict-style replace of the user's entry, the lookup yields it. -/
theorem lookupState_map_replace (l : List (Nat × Session)) (uid : Nat)
    (s : Session)
    (h : (l.find? (fun e => e.1 == uid)).isSome = true) :
    lookupState (l.map (fun e => if e.1 == uid then (uid, s) else e)) uid
      = some s := by
  induction l with
  | nil => simp [List.find?] at h
  | cons e rest ih =>
    by_cases he : (e.1 == uid) = true
    · unfold lookupState
      simp only [List.map_cons, if_pos he]
      rw [List.find?_cons_of_pos]
      · rfl
      · simp
    · unfold lookupState
      simp only [List.map_cons, if_neg he]
      rw [List.find?_cons_of_neg]
      · rw [List.find?_cons_of_neg] at h
        · exact ih h
        · simp [Bool.not_eq_true] at he ⊢
          exact he
      · simp [Bool.not_eq_true] at he ⊢
        exact he

/-- After a dict-style append of a fresh entry, the lookup yields it. -/
theorem lookupState_append_self (l : List (Nat × Session)) (uid : Nat)
    (s : Session)
    (h : (l.find? (fun e => e.1 == uid)).isSome = false) :
    lookupState (l ++ [(uid, s)]) uid = some s := by
  induction l with
  | nil => simp [lookupState, List.find?]
  | cons e rest ih =>
    by_cases he : (e.1 == uid) = true
    · rw [List.find?_cons_of_pos] at h
      · simp at h
      · simp [he]
    · unfold lookupState
      rw [List.cons_append, List.find?_cons_of_neg]
      · apply ih
        rw [List.find?_cons_of_neg] at h
        · exact h
        · simp [Bool.not_eq_true] at he ⊢
          exact he
      · simp [Bool.not_eq_true] at he ⊢
        exact he

/-- Dict assignment then lookup on the same key. -/
theorem lookupState_insertState (l : List (Nat × Session)) (uid : Nat)
    (s : Session) :
    lookupState (insertState l uid s) uid = some s := by
  unfold insertState
  by_cases h : (l.find? (fun e => e.1 == uid)).isSome = true
  · rw [if_pos h]
    exact lookupState_map_replace l uid s h
  · rw [if_neg h]
    refine lookupState_append_self l uid s ?_
    rw [Bool.not_eq_true] at h
    exact h

/-- `get_user_state` after `set_user_state`: the new state with the merged
data — a supplied entry wins, an absent one keeps the old value. -/
theorem get_set_user_state (st : Storage) (uid : Nat) (state : String)
    (newCat newTitle : Option String) :
    get_user_state (set_user_state st uid state newCat newTitle) uid
      = ⟨state,
          newCat.orElse (fun _ => (get_user_state st uid).dataCategory),
          newTitle.orElse (fun _ => (get_user_state st uid).dataTitle)⟩ := by
  unfold get_user_state set_user_state
  rw [lookupState_insertState]
  rfl

/-- `get_user_state` after `clear_user_state`: the `start` default. -/
theorem get_user_state_clear (st : Storage) (uid : Nat) :
    get_user_state (clear_user_state st uid) uid = defaultSession := by
  unfold get_user_state clear_user_state lookupState eraseState
  rw [List.find?_eq_none.mpr]
  · rfl
  · intro e he
    have h2 := (List.mem_filter.mp he).2
    exact of_decide_eq_true h2

/-! ## URL submission (C6) and validation failures (C7) -/

/-- Characterisation of `is_valid_url = false` by scheme and host. -/
theorem is_valid_url_false_iff (s : String) :
    is_valid_url s = false ↔
      ((parsedScheme s ≠ "http" ∧ parsedScheme s ≠ "https")
        ∨ parsedNetloc s = "") := by
  unfold is_valid_url
  cases hs1 : (parsedScheme s == "http") <;>
    cases hs2 : (parsedScheme s == "https") <;>
      cases hn : (parsedNetloc s == "") <;>
        simp_all

/-- Counterexample to C6 as stated: after a successful submission in
`awaiting_url` the stored session state is the cleared default `start`
(because `clear_user_state` runs after `show_other_posts`), not
`awaiting_support_confirmation`. -/
theorem url_submit_state_counterexample :
    (get_user_state
        (handle_url_input
          ⟨[], [(1, ⟨"awaiting_url", some "technology", some "T"⟩)], 1⟩
          1 "https://example.com/a" "2025-01-01T00:00:00+00:00" true true).1
        1).state = "start"
    ∧ ¬ (get_user_state
        (handle_url_input
          ⟨[], [(1, ⟨"awaiting_url", some "technology", some "T"⟩)], 1⟩
          1 "https://example.com/a" "2025-01-01T00:00:00+00:00" true true).1
        1).state = "awaiting_support_confirmation" := by
  constructor
  · rfl
  · decide

/-- **C6 (amended)**: in `awaiting_url` with stored category and title and a
valid URL, the machine submits the post built from the stored category,
title and the sent URL (returning id `next_post_id`), shows the feed
(transiently writing `awaiting_support_confirmation`), and then clears the
session entry, so the stored session state afterwards is the default
`start`. -/
theorem url_submit_success (st : Storage) (uid : Nat) (text ts : String)
    (c t : String)
    (hstate : (get_user_state st uid).state = "awaiting_url")
    (hc : (get_user_state st uid).dataCategory = some c)
    (ht : (get_user_state st uid).dataTitle = some t)
    (hvalid : is_valid_url (strip text) = true) :
    handle_url_input st uid text ts true true
      = (clear_user_state
          (show_other_posts_state
            (save_post st uid c t (strip text) ts true).1 uid) uid,
        .posted st.next_post_id)
    ∧ (get_user_state (handle_url_input st uid text ts true true).1 uid).state
        = "start" := by
  have heq : handle_url_input st uid text ts true true
      = (clear_user_state
          (show_other_posts_state
            (save_post st uid c t (strip text) ts true).1 uid) uid,
        .posted st.next_post_id) := by
    simp [handle_url_input, hc, ht, hvalid, save_post]
  refine ⟨heq, ?_⟩
  rw [heq]
  rw [get_user_state_clear]
  rfl

/-- Witness for C6 (amended) at a concrete session. -/
theorem url_submit_success_witness :
    ((get_user_state
        ⟨[], [(1, ⟨"awaiting_url", some "technology", some "T"⟩)], 1⟩
        1).state = "awaiting_url"
      ∧ (get_user_state
          ⟨[], [(1, ⟨"awaiting_url", some "technology", some "T"⟩)], 1⟩
          1).dataCategory = some "technology"
      ∧ (get_user_state
          ⟨[], [(1, ⟨"awaiting_url", some "technology", some "T"⟩)], 1⟩
          1).dataTitle = some "T"
      ∧ is_valid_url (strip ("https://example.com/a" : String)) = true)
    ∧ (get_user_state
        (handle_url_input
          ⟨[], [(1, ⟨"awaiting_url", some "technology", some "T"⟩)], 1⟩
          1 "https://example.com/a" "D1" true true).1 1).state = "start" :=
  ⟨⟨rfl, rfl, rfl, by decide⟩,
    (url_submit_success
      ⟨[], [(1, ⟨"awaiting_url", some "technology", some "T"⟩)], 1⟩
      1 "https://example.com/a" "D1" "technology" "T" rfl rfl rfl
      (by decide)).2⟩

/-- **C7**: a title whose stripped text exceeds 50 characters in
`awaiting_title`, and in `awaiting_url` (with collected data) a text whose
parsed scheme is not exactly `http` or `https` or whose host component is
empty, are rejected as structured outcomes; the storage — posts and session
table alike — is returned unchanged, so no post is created and the session
state stays put. -/
theorem validation_failures_change_nothing :
    (∀ parseDate : String → Option Nat, ∀ today : Nat, ∀ st : Storage,
      ∀ uid : Nat, ∀ text : String,
        (get_user_state st uid).state = "awaiting_title" →
        (strip text).length > 50 →
        handle_title_input parseDate today st uid text true
          = (st, .rejectedTitleTooLong))
    ∧ (∀ st : Storage, ∀ uid : Nat, ∀ text ts : String, ∀ ok : Bool,
      ∀ c t : String,
        (get_user_state st uid).state = "awaiting_url" →
        (get_user_state st uid).dataCategory = some c →
        (get_user_state st uid).dataTitle = some t →
        ((parsedScheme (strip text) ≠ "http" ∧ parsedScheme (strip text) ≠ "https")
          ∨ parsedNetloc (strip text) = "") →
        handle_url_input st uid text ts ok true = (st, .rejectedInvalidUrl)) := by
  constructor
  · intro parseDate today st uid text hstate hlen
    simp [handle_title_input, hlen]
  · intro st uid text ts ok c t hstate hc ht hbad
    have hvalid : is_valid_url (strip text) = false :=
      (is_valid_url_false_iff (strip text)).mpr hbad
    simp [handle_url_input, hc, ht, hvalid]

/-- Witness for C7: a 51-character title and an `ftp://` URL. -/
theorem validation_failures_change_nothing_witness :
    (((get_user_state
          ⟨[], [(1, ⟨"awaiting_title", some "technology", none⟩)], 1⟩
          1).state = "awaiting_title"
        ∧ (strip ("xxxxxxxxxxxxxxxxxxxxxxxxxxxxxxxxxxxxxxxxxxxxxxxxxxx"
            : String)).length > 50)
      ∧ handle_title_input demoParseDate 1
          ⟨[], [(1, ⟨"awaiting_title", some "technology", none⟩)], 1⟩
          1 "xxxxxxxxxxxxxxxxxxxxxxxxxxxxxxxxxxxxxxxxxxxxxxxxxxx" true
        = (⟨[], [(1, ⟨"awaiting_title", some "technology", none⟩)], 1⟩,
            .rejectedTitleTooLong))
    ∧ ((parsedScheme (strip ("ftp://example.com" : String)) ≠ "http"
          ∧ parsedScheme (strip ("ftp://example.com" : String)) ≠ "https")
      ∧ handle_url_input
          ⟨[], [(1, ⟨"awaiting_url", some "technology", some "T"⟩)], 1⟩
          1 "ftp://example.com" "D1" true true
        = (⟨[], [(1, ⟨"awaiting_url", some "technology", some "T"⟩)], 1⟩,
            .rejectedInvalidUrl)) :=
  ⟨⟨⟨rfl, by decide⟩,
      validation_failures_change_nothing.1 demoParseDate 1
        ⟨[], [(1, ⟨"awaiting_title", some "technology", none⟩)], 1⟩
        1 "xxxxxxxxxxxxxxxxxxxxxxxxxxxxxxxxxxxxxxxxxxxxxxxxxxx" rfl
        (by decide)⟩,
    ⟨by decide,
      validation_failures_change_nothing.2
        ⟨[], [(1, ⟨"awaiting_url", some "technology", some "T"⟩)], 1⟩
        1 "ftp://example.com" "D1" true "technology" "T" rfl rfl rfl
        (Or.inl (by decide))⟩⟩

/-! ## Invalid sessions (C8) -/

/-- Counterexample to C8 as stated: in `awaiting_title` with no stored
category, the handler replies and calls `start`, but the stored session
state stays `awaiting_title` — it is not reset to `start`. -/
theorem invalid_session_no_reset_counterexample :
    (get_user_state
        (handle_title_input demoParseDate 1
          ⟨[], [(1, ⟨"awaiting_title", none, none⟩)], 1⟩ 1 "hello" true).1
        1).state = "awaiting_title"
    ∧ ¬ (get_user_state
        (handle_title_input demoParseDate 1
          ⟨[], [(1, ⟨"awaiting_title", none, none⟩)], 1⟩ 1 "hello" true).1
        1).state = "start" := by
  constructor
  · rfl
  · decide

/-- **C8 (amended)**: reaching `awaiting_title` without a stored category,
or `awaiting_url` with category or title missing, never crashes — the
handlers are total functions that return the `resetToStart` outcome (the
user is routed through the start flow) — but the stored session entry is
left exactly as it was, because `start` never writes the session table;
no stored reset to `start` happens. -/
theorem invalid_session_reset (parseDate : String → Option Nat) (today : Nat)
    (st : Storage) (uid : Nat) (text : String) :
    (¬ (strip text).length > 50 →
      (get_user_state st uid).dataCategory = none →
      handle_title_input parseDate today st uid text true
        = (st, .resetToStart))
    ∧ ((get_user_state st uid).dataCategory = none
        ∨ (get_user_state st uid).dataTitle = none →
      ∀ ts : String, ∀ ok : Bool,
        handle_url_input st uid text ts ok true = (st, .resetToStart)) := by
  constructor
  · intro hlen hc
    simp [handle_title_input, hlen, hc]
  · intro h ts ok
    rcases h with hc | ht
    · simp [handle_url_input, hc]
    · cases hc : (get_user_state st uid).dataCategory with
      | none => simp [handle_url_input, hc]
      | some c => simp [handle_url_input, hc, ht]

/-- Witness for C8 (amended) at a concrete corrupted session. -/
theorem invalid_session_reset_witness :
    ((¬ (strip ("hello" : String)).length > 50
        ∧ (get_user_state ⟨[], [(1, ⟨"awaiting_title", none, none⟩)], 1⟩
            1).dataCategory = none)
      ∧ handle_title_input demoParseDate 1
          ⟨[], [(1, ⟨"awaiting_title", none, none⟩)], 1⟩ 1 "hello" true
        = (⟨[], [(1, ⟨"awaiting_title", none, none⟩)], 1⟩, .resetToStart))
    ∧ handle_url_input ⟨[], [(1, ⟨"awaiting_url", some "technology", none⟩)], 1⟩
        1 "hello" "D1" true true
      = (⟨[], [(1, ⟨"awaiting_url", some "technology", none⟩)], 1⟩,
          .resetToStart) :=
  ⟨⟨⟨by decide, rfl⟩,
      (invalid_session_reset demoParseDate 1
        ⟨[], [(1, ⟨"awaiting_title", none, none⟩)], 1⟩ 1 "hello").1
        (by decide) rfl⟩,
    (invalid_session_reset demoParseDate 1
      ⟨[], [(1, ⟨"awaiting_url", some "technology", none⟩)], 1⟩ 1 "hello").2
      (Or.inr rfl) "D1" true⟩

/-! ## The unused total cap (C9) -/

/-- Counterexample to C9 as stated: four posts in four categories with
`limit_per_category = 5` and `max_total = 3` yield four posts in total —
the cap is exceeded because `max_total` is never used. -/
theorem max_total_ignored_counterexample :
    ((get_recent_posts
        [⟨1, "technology", "a", "u", "2025-01-01", 1⟩,
          ⟨2, "money", "b", "u", "2025-01-01", 2⟩,
          ⟨3, "media", "c", "u", "2025-01-01", 3⟩,
          ⟨4, "personal", "d", "u", "2025-01-01", 4⟩] 5 3).map
        (fun pr => pr.2.length)).sum = 4
    ∧ ¬ ((get_recent_posts
        [⟨1, "technology", "a", "u", "2025-01-01", 1⟩,
          ⟨2, "money", "b", "u", "2025-01-01", 2⟩,
          ⟨3, "media", "c", "u", "2025-01-01", 3⟩,
          ⟨4, "personal", "d", "u", "2025-01-01", 4⟩] 5 3).map
        (fun pr => pr.2.length)).sum ≤ 3 := by
  constructor
  · decide
  · decide

/-- **C9 (amended)**: `get_recent_posts` accepts `max_total` but ignores it:
the result is the same for any two cap values, no proportional shrinking
happens, and the only bound on the summed count is `7 * limit_per_category`
(one full slice per fixed category). -/
theorem max_total_unused (posts : List PostRec)
    (limit_per_category m1 m2 : Nat) :
    get_recent_posts posts limit_per_category m1
      = get_recent_posts posts limit_per_category m2
    ∧ ((get_recent_posts posts limit_per_category m1).map
        (fun pr => pr.2.length)).sum
      ≤ CATEGORIES.length * limit_per_category := by
  constructor
  · rfl
  · have h1 : (get_recent_posts posts limit_per_category m1).Sublist
        (CATEGORIES.map (fun c =>
          (c, ((sortByCreatedDesc posts).filter
            (fun p => p.category == c)).take limit_per_category))) := by
      unfold get_recent_posts
      exact List.filter_sublist _
    have h2 := List.Sublist.sum_le_sum
      (h1.map (fun pr => pr.2.length)) (fun a _ => Nat.zero_le a)
    refine le_trans h2 ?_
    rw [List.map_map]
    have h3 : ∀ x ∈ CATEGORIES.map
        ((fun pr : String × List PostRec => pr.2.length) ∘ (fun c =>
          (c, ((sortByCreatedDesc posts).filter
            (fun p => p.category == c)).take limit_per_category))),
        x ≤ limit_per_category := by
      intro x hx
      rw [List.mem_map] at hx
      obtain ⟨c, hc, rfl⟩ := hx
      exact List.length_take_le _ _
    have h4 := List.sum_le_card_nsmul _ limit_per_category h3
    rw [List.length_map] at h4
    simpa using h4

/-! ## Back navigation (C10) -/

/-- Counterexample to C10 as stated: after a back navigation to category
selection from `awaiting_url`, the previously collected category and title
are still present in the session data (they are merged, not discarded). -/
theorem back_keeps_data_counterexample :
    (get_user_state
        (handle_back_navigation
          ⟨[], [(1, ⟨"awaiting_url", some "technology", some "T"⟩)], 1⟩
          1 "back_to_categories" true)
        1).state = "awaiting_category"
    ∧ (get_user_state
        (handle_back_navigation
          ⟨[], [(1, ⟨"awaiting_url", some "technology", some "T"⟩)], 1⟩
          1 "back_to_categories" true)
        1).dataCategory = some "technology"
    ∧ (get_user_state
        (handle_back_navigation
          ⟨[], [(1, ⟨"awaiting_url", some "technology", some "T"⟩)], 1⟩
          1 "back_to_categories" true)
        1).dataTitle = some "T" := by
  refine ⟨rfl, rfl, rfl⟩

/-- **C10 (amended)**: back navigation never discards collected data.
`back_to_categories` moves the stored state to `awaiting_category` but
merges (keeps) the existing `category` and `title`; `back_to_title`,
`start_over` and `back_to_main` leave the whole storage — state and data —
untouched. -/
theorem back_navigation_merges_data (st : Storage) (uid : Nat) :
    ((get_user_state
        (handle_back_navigation st uid "back_to_categories" true) uid).state
        = "awaiting_category"
      ∧ (get_user_state
          (handle_back_navigation st uid "back_to_categories" true)
          uid).dataCategory
        = (get_user_state st uid).dataCategory
      ∧ (get_user_state
          (handle_back_navigation st uid "back_to_categories" true)
          uid).dataTitle
        = (get_user_state st uid).dataTitle)
    ∧ handle_back_navigation st uid "back_to_title" true = st
    ∧ handle_back_navigation st uid "start_over" true = st
    ∧ handle_back_navigation st uid "back_to_main" true = st := by
  have h : handle_back_navigation st uid "back_to_categories" true
      = set_user_state st uid "awaiting_category" none none := rfl
  refine ⟨⟨?_, ?_, ?_⟩, rfl, rfl, rfl⟩
  · rw [h, get_set_user_state]
  · rw [h, get_set_user_state]
    rfl
  · rw [h, get_set_user_state]
    rfl

end Vzaimopiar
